import Mathlib

/- Verification of the incremental markdown merge engine of the
   stream-markdown repository: a shallow embedding of the pure merge
   function (`mergeMarkdownState` in src/markdown-state.ts) and of the
   imperative session (`createSession` in src/session.ts), together with
   proofs of the documented invariants.

   JavaScript strings are modelled through their character lists, and
   JavaScript array identity (reference equality of the committed-blocks
   array) is modelled by a ghost allocation counter: every array literal,
   slice or spread the source allocates receives a fresh identifier, while
   plain reference copies keep the identifier of the source array. -/

/-- Length of a JS string, counted in characters. -/
def jsLen (s : String) : Nat := s.data.length

/-- Character-list version of JS `String.prototype.startsWith`. -/
def charsStartWith : List Char → List Char → Bool
  | _, [] => true
  | [], _ :: _ => false
  | c :: cs, d :: ds => c == d && charsStartWith cs ds

/-- JS `s.startsWith(p)`. -/
def jsStartsWith (s p : String) : Bool := charsStartWith s.data p.data

/-- JS `s.slice(n)` for a non-negative index `n`. -/
def jsDrop (s : String) (n : Nat) : String := ⟨s.data.drop n⟩

/-- JS `s.slice(start)` for a possibly negative `start`: a negative start
counts from the end of the string, clamped at 0. -/
def jsSliceFrom (s : String) (start : Int) : String :=
  if start < 0 then ⟨s.data.drop ((s.data.length : Int) + start).toNat⟩
  else ⟨s.data.drop start.toNat⟩

/-- JS `chunks.join('')`. -/
def joinChunks (chunks : List String) : String := chunks.foldl (· ++ ·) ""

/-- A block node produced by the external parser (an mdast `RootContent`):
the engine treats it as an opaque payload carrying an optional start offset
(`node.position?.start?.offset`). -/
structure MarkdownBlock where
  kind : String
  content : String
  start : Option Int
deriving DecidableEq

/-- Whitespace test used by the demonstration parser. -/
def isWsChar (c : Char) : Bool := c == ' ' || c == '\n' || c == '\t'

/-- Splits a character list into segments separated by blank lines
(occurrences of two consecutive newline characters), returning each
segment with its start offset. -/
def splitGo : List Char → Nat → Nat → List Char → List (Nat × List Char)
  | [], start, _, cur => [(start, cur)]
  | [c], start, _, cur => [(start, cur ++ [c])]
  | c :: c2 :: rest, start, i, cur =>
    if c = '\n' ∧ c2 = '\n' then (start, cur) :: splitGo rest (i + 2) (i + 2) []
    else splitGo (c2 :: rest) start (i + 1) (cur ++ [c])

/-- A concrete instance of the external block parser, mirroring the remark
parser's behaviour on plain paragraph text: paragraphs are separated by
blank lines, a whitespace-only span yields no blocks, and every block
reports the start offset of its text within the parsed span.  The engine
theorems are parameterised over an arbitrary parser; this instance is used
to evaluate them on the concrete scenarios of the specification. -/
def demoParse (s : String) : List MarkdownBlock :=
  (splitGo s.data 0 0 []).filterMap fun seg =>
    if seg.2.any (fun c => !(isWsChar c)) then
      some { kind := "paragraph", content := ⟨seg.2⟩, start := some (seg.1 : Int) }
    else none

example : demoParse "Hello world\n\nSecond block" =
    [⟨"paragraph", "Hello world", some 0⟩, ⟨"paragraph", "Second block", some 13⟩] := by
  decide

example : demoParse "   " = [] := by decide

example : demoParse "A\n\nB\n\nC" =
    [⟨"paragraph", "A", some 0⟩, ⟨"paragraph", "B", some 3⟩, ⟨"paragraph", "C", some 6⟩] := by
  decide

/- Embedding of src/markdown-state.ts: the pure merge engine. -/

/-- A JS array of blocks together with its ghost allocation identifier:
two `BlockArray` values are equal exactly when they denote the same array
object (same allocation) holding the same elements. -/
structure BlockArray where
  ref : Nat
  val : List MarkdownBlock
deriving DecidableEq

/-- Input of `mergeMarkdownState`: the full accumulated chunk list and the
completion flag. -/
structure MarkdownMergeInput where
  chunks : List String
  done : Bool
deriving DecidableEq

/-- The machine state of the pure merge engine.  The `alloc` field is the
ghost allocation counter used to give freshly-allocated committed-blocks
arrays identifiers distinct from every array allocated before. -/
structure MarkdownMachineState where
  chunks : List String
  text : String
  cursor : Nat
  version : Nat
  committedBlocks : BlockArray
  bufferBlock : Option MarkdownBlock
  done : Bool
  alloc : Nat
deriving DecidableEq

/-- Result of `mergeMarkdownState`. -/
structure MarkdownMergeResult where
  state : MarkdownMachineState
  committedBlocks : BlockArray
  bufferBlock : Option MarkdownBlock
deriving DecidableEq

/-- The `parseNodes` helper: an empty source yields no nodes, otherwise the
external parser runs on the source.  The engine is parameterised over the
external parser, which the source consumes as an opaque function. -/
def parseNodes (parse : String → List MarkdownBlock) (source : String) :
    List MarkdownBlock :=
  if jsLen source = 0 then [] else parse source

/-- The `bufferStart` helper: the buffered node's reported start offset
when it is a non-negative number, the fallback otherwise. -/
def bufferStart (node : Option MarkdownBlock) (fallback : Nat) : Nat :=
  match node with
  | some n =>
    match n.start with
    | some offset => if 0 ≤ offset then offset.toNat else fallback
    | none => fallback
  | none => fallback

/-- The committed-array contents built by a promoting step:
`previous.committedBlocks.length > 0 ? [...previous.committedBlocks, ...nodes] : nodes`. -/
def appendCommitted (prevVal nodes : List MarkdownBlock) : List MarkdownBlock :=
  if 0 < prevVal.length then prevVal ++ nodes else nodes

/-- The extension test of `mergeMarkdownState`:
`mergedText.startsWith(previous.text) && mergedText.length >= previous.text.length`. -/
def isExtensionOf (mergedText prevText : String) : Bool :=
  jsStartsWith mergedText prevText && decide (jsLen prevText ≤ jsLen mergedText)

/-- Builder for a merge result whose state fields are given directly; the
result repeats the state's committed blocks and buffer block. -/
def mkMergeResult (chunks : List String) (text : String) (cursor : Nat)
    (version : Nat) (committedBlocks : BlockArray)
    (bufferBlock : Option MarkdownBlock) (done : Bool) (alloc : Nat) :
    MarkdownMergeResult :=
  ⟨{ chunks := chunks, text := text, cursor := cursor, version := version,
     committedBlocks := committedBlocks, bufferBlock := bufferBlock,
     done := done, alloc := alloc }, committedBlocks, bufferBlock⟩

/-- The `applyFromScratch` helper: parses the whole source and partitions
its nodes.  The committed-blocks array it stores is always allocated
during the call, so it receives the fresh identifier `alloc`. -/
def applyFromScratch (parse : String → List MarkdownBlock) (source : String)
    (chunks : List String) (done : Bool) (nextVersion : Nat) (alloc : Nat) :
    MarkdownMergeResult :=
  let nodes := parseNodes parse source
  if done then
    mkMergeResult chunks source (jsLen source) nextVersion ⟨alloc, nodes⟩ none done (alloc + 1)
  else if nodes.length = 0 then
    mkMergeResult chunks source (jsLen source) nextVersion ⟨alloc, []⟩ none done (alloc + 1)
  else if nodes.length = 1 then
    mkMergeResult chunks source (bufferStart nodes.head? (jsLen source)) nextVersion
      ⟨alloc, []⟩ nodes.head? done (alloc + 1)
  else
    mkMergeResult chunks source (bufferStart nodes.getLast? (jsLen source)) nextVersion
      ⟨alloc, nodes.dropLast⟩ nodes.getLast? done (alloc + 1)

/-- The pure merge engine `mergeMarkdownState` of src/markdown-state.ts:
no-op when text and flag are unchanged, suffix-only incremental parse when
the joined input extends the previous text, full reparse with a version
bump otherwise. -/
def mergeMarkdownState (parse : String → List MarkdownBlock)
    (previous : Option MarkdownMachineState) (input : MarkdownMergeInput) :
    MarkdownMergeResult :=
  let mergedText := joinChunks input.chunks
  let done := input.done
  match previous with
  | none => applyFromScratch parse mergedText input.chunks done 0 0
  | some prev =>
    if mergedText = prev.text ∧ done = prev.done then
      mkMergeResult input.chunks prev.text prev.cursor prev.version
        prev.committedBlocks prev.bufferBlock prev.done prev.alloc
    else if isExtensionOf mergedText prev.text = false then
      applyFromScratch parse mergedText input.chunks done (prev.version + 1) prev.alloc
    else
      let suffix := jsDrop mergedText prev.cursor
      if jsLen suffix = 0 ∧ done = prev.done then
        mkMergeResult input.chunks mergedText prev.cursor prev.version
          prev.committedBlocks prev.bufferBlock done prev.alloc
      else
        let nodes := parseNodes parse suffix
        if done then
          if 0 < nodes.length then
            mkMergeResult input.chunks mergedText (jsLen mergedText) prev.version
              ⟨prev.alloc, appendCommitted prev.committedBlocks.val nodes⟩
              none done (prev.alloc + 1)
          else
            mkMergeResult input.chunks mergedText (jsLen mergedText) prev.version
              prev.committedBlocks none done prev.alloc
        else if nodes.length = 0 then
          mkMergeResult input.chunks mergedText (jsLen mergedText) prev.version
            prev.committedBlocks none done prev.alloc
        else if nodes.length = 1 then
          mkMergeResult input.chunks mergedText
            (prev.cursor + bufferStart nodes.head? (jsLen suffix)) prev.version
            prev.committedBlocks nodes.head? done prev.alloc
        else
          let ready := nodes.dropLast
          if 0 < ready.length then
            mkMergeResult input.chunks mergedText
              (prev.cursor + bufferStart nodes.getLast? (jsLen suffix)) prev.version
              ⟨prev.alloc, appendCommitted prev.committedBlocks.val ready⟩
              nodes.getLast? done (prev.alloc + 1)
          else
            mkMergeResult input.chunks mergedText
              (prev.cursor + bufferStart nodes.getLast? (jsLen suffix)) prev.version
              prev.committedBlocks nodes.getLast? done prev.alloc

example :
    (mergeMarkdownState demoParse none ⟨["Hello world\n\nSecond block"], false⟩).state.cursor = 13 := by
  decide

example :
    (mergeMarkdownState demoParse none ⟨["Hello world\n\nSecond block"], false⟩).committedBlocks.val.length = 1 := by
  decide

/- Embedding of src/session.ts: the imperative session wrapper.  The
mutable closure state (the `MutableSnapshot` record together with the
`bufferSource` closure variable) becomes an explicit state record, and
every internal helper becomes a state-passing function. -/

namespace Session

/-- The session's mutable state: the fields of `MutableSnapshot` plus the
`bufferSource` closure variable holding the not-yet-consumed text. -/
structure SessionState where
  committedBlocks : List MarkdownBlock
  bufferBlocks : List MarkdownBlock
  version : Nat
  cursor : Nat
  done : Bool
  bufferSource : String
deriving DecidableEq

/-- The only error the session ever raises: `write` on a finalized
session (`throw new Error('Cannot write to a finalized session')`). -/
inductive SessionError where
  | invalidState
deriving DecidableEq

/-- The optional `SessionInit` seed `{value?, done?}`; an absent `done`
behaves as `false` (both are falsy). -/
structure SessionInit where
  value : Option String
  done : Bool
deriving DecidableEq

/-- The state `createSession` installs before any seed is applied. -/
def initialState : SessionState :=
  { committedBlocks := [], bufferBlocks := [], version := 0, cursor := 0,
    done := false, bufferSource := "" }

/-- The `promoteBlocks` helper: partitions freshly parsed nodes into
promoted and buffered blocks, returning the updated state and the boolean
the source returns. -/
def promoteBlocks (s : SessionState) (nodes : List MarkdownBlock)
    (finalize : Bool) : SessionState × Bool :=
  match nodes with
  | [] =>
    let s1 := { s with bufferBlocks := [] }
    if finalize then
      ({ s1 with bufferSource := "", done := true, version := s1.version + 1 }, true)
    else (s1, false)
  | n :: rest =>
    if finalize then
      ({ s with
          committedBlocks := s.committedBlocks ++ (n :: rest),
          bufferBlocks := [], bufferSource := "", done := true,
          version := s.version + 1 }, true)
    else
      match rest with
      | [] => ({ s with bufferBlocks := [n] }, false)
      | m :: rest2 =>
        let committedSlice := (n :: m :: rest2).dropLast
        let latest := (n :: m :: rest2).getLast (by simp)
        let s1 := { s with
                    committedBlocks := s.committedBlocks ++ committedSlice,
                    bufferBlocks := [latest] }
        let s2 :=
          match latest.start with
          | some st => { s1 with bufferSource := jsSliceFrom s1.bufferSource st }
          | none => s1
        ({ s2 with version := s2.version + 1 }, true)

/-- The `parseBuffer` helper: handles the empty-source bookkeeping and
otherwise runs the external parser on `bufferSource` and promotes. -/
def parseBuffer (parse : String → List MarkdownBlock) (s : SessionState)
    (finalize : Bool) : SessionState × Bool :=
  if jsLen s.bufferSource = 0 then
    let s1 := if finalize = false then { s with bufferBlocks := [] } else s
    let s2 :=
      if finalize = true ∧ 0 < s1.bufferBlocks.length then
        { s1 with
          committedBlocks := s1.committedBlocks ++ s1.bufferBlocks,
          bufferBlocks := [], version := s1.version + 1 }
      else s1
    let s3 := if finalize = true then { s2 with done := true } else s2
    (s3, finalize)
  else
    promoteBlocks s (parse s.bufferSource) finalize

/-- The `ingest` helper: appends new text to `bufferSource`, advances the
cursor by its length and reparses; an empty text is ignored. -/
def ingest (parse : String → List MarkdownBlock) (s : SessionState)
    (text : String) : SessionState :=
  if jsLen text = 0 then s
  else
    let s1 := { s with
                bufferSource := s.bufferSource ++ text,
                cursor := s.cursor + jsLen text }
    (parseBuffer parse s1 false).1

/-- The `finalizeSession` operation: idempotent once done; otherwise the
optional suffix is ingested, the buffer is flushed and the session sealed. -/
def finalizeSession (parse : String → List MarkdownBlock) (s : SessionState)
    (extra : Option String) : SessionState :=
  if s.done then s
  else
    let s1 :=
      match extra with
      | some e =>
        if 0 < jsLen e then
          { s with bufferSource := s.bufferSource ++ e, cursor := s.cursor + jsLen e }
        else s
      | none => s
    let s2 := (parseBuffer parse s1 true).1
    { s2 with bufferSource := "" }

/-- The `reset` operation: discards all state and reapplies the optional
seed (a non-empty seed value is ingested, a truthy seed `done` finalizes). -/
def resetSession (parse : String → List MarkdownBlock)
    (init : Option SessionInit) : SessionState :=
  let s := initialState
  let s1 :=
    match init with
    | some i =>
      match i.value with
      | some v => if 0 < jsLen v then ingest parse s v else s
      | none => s
    | none => s
  match init with
  | some i => if i.done then finalizeSession parse s1 none else s1
  | none => s1

/-- The `createSession` factory: starts from the empty state and applies
`reset(initial)` when a seed is supplied. -/
def createSession (parse : String → List MarkdownBlock)
    (initial : Option SessionInit) : SessionState :=
  match initial with
  | some i => resetSession parse (some i)
  | none => initialState

/-- The externally visible snapshot `{committedBlocks, bufferBlocks,
version, cursor, done}`. -/
structure MarkdownSnapshot where
  committedBlocks : List MarkdownBlock
  bufferBlocks : List MarkdownBlock
  version : Nat
  cursor : Nat
  done : Bool
deriving DecidableEq

/-- The `snapshot` operation: a pure read of the session state. -/
def snapshot (s : SessionState) : MarkdownSnapshot :=
  { committedBlocks := s.committedBlocks, bufferBlocks := s.bufferBlocks,
    version := s.version, cursor := s.cursor, done := s.done }

/-- The `write` operation: throws `InvalidState` when the session is
already done, otherwise ingests the chunk. -/
def write (parse : String → List MarkdownBlock) (s : SessionState)
    (chunk : String) : Except SessionError SessionState :=
  if s.done then Except.error SessionError.invalidState
  else Except.ok (ingest parse s chunk)

/-- The session state after a `write` call: a throwing call leaves the
state untouched (the source throws before mutating anything). -/
def writeStep (parse : String → List MarkdownBlock) (s : SessionState)
    (chunk : String) : SessionState :=
  match write parse s chunk with
  | Except.ok s1 => s1
  | Except.error _ => s

/-- The session state after a sequence of `write` calls. -/
def applyWrites (parse : String → List MarkdownBlock) (s : SessionState)
    (chunks : List String) : SessionState :=
  chunks.foldl (writeStep parse) s

/-- A session operation: one of the mutating calls of the public API
(`snapshot` does not change the state). -/
inductive SessionOp where
  | write (chunk : String)
  | finalize (extra : Option String)
  | reset (init : Option SessionInit)

/-- Applies one session operation to the state. -/
def applyOp (parse : String → List MarkdownBlock) (s : SessionState) :
    SessionOp → SessionState
  | SessionOp.write c => writeStep parse s c
  | SessionOp.finalize e => finalizeSession parse s e
  | SessionOp.reset i => resetSession parse i

/-- The session state after a sequence of operations. -/
def runOps (parse : String → List MarkdownBlock) (s : SessionState)
    (ops : List SessionOp) : SessionState :=
  ops.foldl (applyOp parse) s

end Session

example :
    (Session.applyWrites demoParse Session.initialState
      ["Hello world\n\nSecond block"]).committedBlocks.length = 1 := by
  decide

example :
    (Session.applyWrites demoParse Session.initialState
      ["Hello world\n\nSecond block", "\n\nThird block"]).committedBlocks.length = 2 := by
  decide

example :
    (Session.createSession demoParse (some ⟨some "hello", true⟩)).done = true := by
  decide

/- Shared lemmas: the committed sequence only ever grows by appending. -/

theorem promoteBlocks_committed_grows (s : Session.SessionState)
    (nodes : List MarkdownBlock) (finalize : Bool) :
    ∃ t, (Session.promoteBlocks s nodes finalize).1.committedBlocks =
      s.committedBlocks ++ t := by
  cases nodes with
  | nil => cases finalize <;> exact ⟨[], by simp [Session.promoteBlocks]⟩
  | cons n rest =>
    cases finalize with
    | true => exact ⟨n :: rest, by simp [Session.promoteBlocks]⟩
    | false =>
      cases rest with
      | nil => exact ⟨[], by simp [Session.promoteBlocks]⟩
      | cons m rest2 =>
        refine ⟨(n :: m :: rest2).dropLast, ?_⟩
        simp only [Session.promoteBlocks]
        split
        · simp_all
        · split <;> simp

theorem parseBuffer_committed_grows (parse : String → List MarkdownBlock)
    (s : Session.SessionState) (finalize : Bool) :
    ∃ t, (Session.parseBuffer parse s finalize).1.committedBlocks =
      s.committedBlocks ++ t := by
  by_cases h0 : jsLen s.bufferSource = 0
  · cases finalize with
    | false => exact ⟨[], by simp [Session.parseBuffer, h0]⟩
    | true =>
      by_cases hb : 0 < s.bufferBlocks.length
      · exact ⟨s.bufferBlocks, by simp [Session.parseBuffer, h0, hb]⟩
      · exact ⟨[], by simp [Session.parseBuffer, h0, hb]⟩
  · simpa [Session.parseBuffer, h0] using
      promoteBlocks_committed_grows s (parse s.bufferSource) finalize

theorem ingest_committed_grows (parse : String → List MarkdownBlock)
    (s : Session.SessionState) (text : String) :
    ∃ t, (Session.ingest parse s text).committedBlocks =
      s.committedBlocks ++ t := by
  by_cases h0 : jsLen text = 0
  · exact ⟨[], by simp [Session.ingest, h0]⟩
  · have h := parseBuffer_committed_grows parse
      { s with
        bufferSource := s.bufferSource ++ text,
        cursor := s.cursor + jsLen text } false
    simpa [Session.ingest, h0] using h

theorem writeStep_committed_grows (parse : String → List MarkdownBlock)
    (s : Session.SessionState) (chunk : String) :
    ∃ t, (Session.writeStep parse s chunk).committedBlocks =
      s.committedBlocks ++ t := by
  by_cases hd : s.done
  · exact ⟨[], by simp [Session.writeStep, Session.write, hd]⟩
  · have h := ingest_committed_grows parse s chunk
    simpa [Session.writeStep, Session.write, hd] using h

theorem applyWrites_committed_grows (parse : String → List MarkdownBlock)
    (s : Session.SessionState) (chunks : List String) :
    ∃ t, (Session.applyWrites parse s chunks).committedBlocks =
      s.committedBlocks ++ t := by
  induction chunks generalizing s with
  | nil => exact ⟨[], by simp [Session.applyWrites]⟩
  | cons c cs ih =>
    obtain ⟨t1, h1⟩ := writeStep_committed_grows parse s c
    obtain ⟨t2, h2⟩ := ih (Session.writeStep parse s c)
    refine ⟨t1 ++ t2, ?_⟩
    simp only [Session.applyWrites, List.foldl_cons] at h2 ⊢
    rw [h2, h1, List.append_assoc]

/-- C1: monotonic commitment — for every sequence of `write` calls on a
session (no reset in between), the committed sequence of the later
snapshot extends the committed sequence of the earlier snapshot: every
block of the earlier snapshot is still present, unchanged and at the same
position, and only new blocks are appended after it. -/
theorem c1_monotonic_commitment (parse : String → List MarkdownBlock)
    (s : Session.SessionState) (chunks : List String) :
    ∃ t, (Session.snapshot (Session.applyWrites parse s chunks)).committedBlocks =
      (Session.snapshot s).committedBlocks ++ t :=
  applyWrites_committed_grows parse s chunks

/- Shared lemmas: the buffer slot never holds more than one block. -/

theorem promoteBlocks_buffer_le (s : Session.SessionState)
    (nodes : List MarkdownBlock) (finalize : Bool) :
    (Session.promoteBlocks s nodes finalize).1.bufferBlocks.length ≤ 1 := by
  cases nodes with
  | nil => cases finalize <;> simp [Session.promoteBlocks]
  | cons n rest =>
    cases finalize with
    | true => simp [Session.promoteBlocks]
    | false =>
      cases rest with
      | nil => simp [Session.promoteBlocks]
      | cons m rest2 =>
        simp only [Session.promoteBlocks]
        split
        · simp_all
        · split <;> simp

theorem parseBuffer_buffer_le (parse : String → List MarkdownBlock)
    (s : Session.SessionState) (finalize : Bool) :
    (Session.parseBuffer parse s finalize).1.bufferBlocks.length ≤ 1 := by
  by_cases h0 : jsLen s.bufferSource = 0
  · cases finalize with
    | false => simp [Session.parseBuffer, h0]
    | true =>
      by_cases hb : 0 < s.bufferBlocks.length
      · simp [Session.parseBuffer, h0, hb]
      · simp [Session.parseBuffer, h0, hb]
        omega
  · simpa [Session.parseBuffer, h0] using
      promoteBlocks_buffer_le s (parse s.bufferSource) finalize

theorem ingest_buffer_le (parse : String → List MarkdownBlock)
    (s : Session.SessionState) (text : String)
    (h : s.bufferBlocks.length ≤ 1) :
    (Session.ingest parse s text).bufferBlocks.length ≤ 1 := by
  by_cases h0 : jsLen text = 0
  · simpa [Session.ingest, h0] using h
  · simpa [Session.ingest, h0] using parseBuffer_buffer_le parse
      { s with
        bufferSource := s.bufferSource ++ text,
        cursor := s.cursor + jsLen text } false

theorem finalizeSession_buffer_le (parse : String → List MarkdownBlock)
    (s : Session.SessionState) (extra : Option String)
    (h : s.bufferBlocks.length ≤ 1) :
    (Session.finalizeSession parse s extra).bufferBlocks.length ≤ 1 := by
  unfold Session.finalizeSession
  by_cases hd : s.done
  · simpa [hd] using h
  · cases extra with
    | none => simpa [hd] using parseBuffer_buffer_le parse s true
    | some e =>
      by_cases he : 0 < jsLen e
      · simpa [hd, he] using parseBuffer_buffer_le parse
          { s with
            bufferSource := s.bufferSource ++ e,
            cursor := s.cursor + jsLen e } true
      · simpa [hd, he] using parseBuffer_buffer_le parse s true

theorem resetSession_buffer_le (parse : String → List MarkdownBlock)
    (init : Option Session.SessionInit) :
    (Session.resetSession parse init).bufferBlocks.length ≤ 1 := by
  have hinit : Session.initialState.bufferBlocks.length ≤ 1 := by
    simp [Session.initialState]
  cases init with
  | none => simpa [Session.resetSession] using hinit
  | some i =>
    obtain ⟨iv, idone⟩ := i
    have hbase : ∀ s : Session.SessionState, s.bufferBlocks.length ≤ 1 →
        (if idone = true then Session.finalizeSession parse s none
         else s).bufferBlocks.length ≤ 1 := by
      intro s hs
      cases idone
      · simpa using hs
      · simpa using finalizeSession_buffer_le parse s none hs
    cases iv with
    | none => simpa [Session.resetSession] using hbase Session.initialState hinit
    | some v =>
      by_cases hlen : 0 < jsLen v
      · simpa [Session.resetSession, hlen] using
          hbase (Session.ingest parse Session.initialState v)
            (ingest_buffer_le parse Session.initialState v hinit)
      · simpa [Session.resetSession, hlen] using hbase Session.initialState hinit

theorem applyOp_buffer_le (parse : String → List MarkdownBlock)
    (s : Session.SessionState) (op : Session.SessionOp)
    (h : s.bufferBlocks.length ≤ 1) :
    (Session.applyOp parse s op).bufferBlocks.length ≤ 1 := by
  cases op with
  | write c =>
    by_cases hd : s.done
    · simpa [Session.applyOp, Session.writeStep, Session.write, hd] using h
    · simpa [Session.applyOp, Session.writeStep, Session.write, hd] using
        ingest_buffer_le parse s c h
  | finalize e => exact finalizeSession_buffer_le parse s e h
  | reset i => exact resetSession_buffer_le parse i

theorem createSession_buffer_le (parse : String → List MarkdownBlock)
    (initial : Option Session.SessionInit) :
    (Session.createSession parse initial).bufferBlocks.length ≤ 1 := by
  cases initial with
  | none => simp [Session.createSession, Session.initialState]
  | some i => exact resetSession_buffer_le parse (some i)

/-- C2: buffer bound — in every state reachable by any sequence of
create/write/finalize/reset operations, the buffer slot holds zero or one
block: `snapshot().bufferBlocks` has length at most 1.  In the pure merge
engine the bound holds by construction, since `bufferBlock` is a single
optional block. -/
theorem c2_buffer_bound (parse : String → List MarkdownBlock)
    (initial : Option Session.SessionInit) (ops : List Session.SessionOp) :
    (Session.snapshot
      (Session.runOps parse (Session.createSession parse initial) ops)).bufferBlocks.length ≤ 1 := by
  have hrun : ∀ (s : Session.SessionState), s.bufferBlocks.length ≤ 1 →
      (Session.runOps parse s ops).bufferBlocks.length ≤ 1 := by
    induction ops with
    | nil => intro s h; simpa [Session.runOps] using h
    | cons op rest ih =>
      intro s h
      simpa [Session.runOps, List.foldl_cons] using
        ih (Session.applyOp parse s op) (applyOp_buffer_le parse s op h)
  exact hrun (Session.createSession parse initial) (createSession_buffer_le parse initial)

/- Shared lemmas about the merge engine's branch conditions. -/

theorem charsStartWith_self (l : List Char) : charsStartWith l l = true := by
  induction l with
  | nil => rfl
  | cons c cs ih => simp [charsStartWith, ih]

theorem isExtensionOf_self (s : String) : isExtensionOf s s = true := by
  simp [isExtensionOf, jsStartsWith, charsStartWith_self]

theorem applyFromScratch_version (parse : String → List MarkdownBlock)
    (source : String) (chunks : List String) (done : Bool)
    (nextVersion : Nat) (alloc : Nat) :
    (applyFromScratch parse source chunks done nextVersion alloc).state.version =
      nextVersion := by
  simp only [applyFromScratch]
  (repeat' split) <;> rfl

/-- C4 counterexample: an extension merge step that promotes a block while
leaving the version unchanged.  Starting from the state for
"First block\n\nSecond block" (one committed block), merging the extended
text "First block\n\nSecond block\n\nThird block" promotes a second block
into the committed sequence, yet the resulting version equals the previous
version — contradicting the claim that every promoting extension step
strictly increases the version. -/
theorem c4_counterexample :
    ((mergeMarkdownState demoParse
        (some (mergeMarkdownState demoParse none
          ⟨["First block\n\nSecond block"], false⟩).state)
        ⟨["First block\n\nSecond block\n\nThird block"], false⟩).state.committedBlocks.val.length = 2)
    ∧ ((mergeMarkdownState demoParse none
        ⟨["First block\n\nSecond block"], false⟩).state.committedBlocks.val.length = 1)
    ∧ ((mergeMarkdownState demoParse
        (some (mergeMarkdownState demoParse none
          ⟨["First block\n\nSecond block"], false⟩).state)
        ⟨["First block\n\nSecond block\n\nThird block"], false⟩).state.version
      = (mergeMarkdownState demoParse none
          ⟨["First block\n\nSecond block"], false⟩).state.version) := by
  decide

/-- C4 (amended): in the merge engine the version is a divergence counter,
not a promotion counter — a merge step against a previous state keeps the
version exactly when the joined input extends the previous text (no-op,
empty-suffix and every extension step, including the ones that promote
blocks), and increments it by one exactly when the input diverges and a
full rebuild runs.  (The imperative session separately bumps its own
version on promotion and on finalization.) -/
theorem c4_version_rule_amended (parse : String → List MarkdownBlock)
    (p : MarkdownMachineState) (input : MarkdownMergeInput) :
    (mergeMarkdownState parse (some p) input).state.version =
      if isExtensionOf (joinChunks input.chunks) p.text then p.version
      else p.version + 1 := by
  by_cases h1 : joinChunks input.chunks = p.text ∧ input.done = p.done
  · simp [mergeMarkdownState, h1.1, h1.2, isExtensionOf_self, mkMergeResult]
  · by_cases h2 : isExtensionOf (joinChunks input.chunks) p.text = false
    · simp [mergeMarkdownState, h1, h2, applyFromScratch_version]
    · have htrue : isExtensionOf (joinChunks input.chunks) p.text = true := by
        cases hh : isExtensionOf (joinChunks input.chunks) p.text
        · exact absurd hh h2
        · rfl
      have hnot : ¬(isExtensionOf (joinChunks input.chunks) p.text = false) := by
        simp [htrue]
      simp only [mergeMarkdownState, if_neg h1, if_neg hnot]
      rw [if_pos htrue]
      (repeat' split) <;> rfl

/-- C5 counterexample: the done flag is not monotonic across raw merge
steps — starting from a done state for "Hi", a merge step with the same
text but `done = false` (neither a reset nor a divergence: the input is a
prefix-preserving extension of the previous text) produces a state whose
done flag is false again. -/
theorem c5_counterexample :
    ((mergeMarkdownState demoParse none ⟨["Hi"], true⟩).state.done = true)
    ∧ ((mergeMarkdownState demoParse
        (some (mergeMarkdownState demoParse none ⟨["Hi"], true⟩).state)
        ⟨["Hi"], false⟩).state.done = false) := by
  decide

/-- C5 (amended): done-flag monotonicity holds for the imperative session
operations — once a session state has `done = true`, a `write` fails and
leaves the state unchanged and a `finalize` returns the state unchanged,
so only an explicit `reset` can clear the flag.  A raw `mergeMarkdownState`
step, by contrast, simply copies the input's done flag and therefore clears
it when the input carries `done = false`. -/
theorem c5_done_monotonic_amended (parse : String → List MarkdownBlock)
    (s : Session.SessionState) (chunk : String) (extra : Option String)
    (h : s.done = true) :
    Session.writeStep parse s chunk = s
    ∧ Session.finalizeSession parse s extra = s := by
  constructor
  · simp [Session.writeStep, Session.write, h]
  · simp [Session.finalizeSession, h]

/-- C5 witness: a finalized session seeded with "hello" is left unchanged
by a further write and by a further finalize. -/
theorem c5_witness :
    Session.writeStep demoParse
      (Session.createSession demoParse (some ⟨some "hello", true⟩)) "world"
      = Session.createSession demoParse (some ⟨some "hello", true⟩)
    ∧ Session.finalizeSession demoParse
      (Session.createSession demoParse (some ⟨some "hello", true⟩)) none
      = Session.createSession demoParse (some ⟨some "hello", true⟩) :=
  c5_done_monotonic_amended demoParse
    (Session.createSession demoParse (some ⟨some "hello", true⟩)) "world" none
    (by decide)

/-- C7: writing to a finalized session fails with the InvalidState error
and leaves the session state — committed blocks, buffer, cursor, version
and done flag — completely unchanged. -/
theorem c7_write_on_done (parse : String → List MarkdownBlock)
    (s : Session.SessionState) (chunk : String) (h : s.done = true) :
    Session.write parse s chunk = Except.error Session.SessionError.invalidState
    ∧ Session.writeStep parse s chunk = s := by
  constructor
  · simp [Session.write, h]
  · simp [Session.writeStep, Session.write, h]

/-- C7 witness (Scenario E of the specification): after
`create({value: "hello", done: true})`, the call `write("world")` fails
with InvalidState. -/
theorem c7_witness :
    (Session.createSession demoParse (some ⟨some "hello", true⟩)).done = true
    ∧ Session.write demoParse
        (Session.createSession demoParse (some ⟨some "hello", true⟩)) "world"
      = Except.error Session.SessionError.invalidState :=
  ⟨by decide,
   (c7_write_on_done demoParse
     (Session.createSession demoParse (some ⟨some "hello", true⟩)) "world" (by decide)).1⟩

/-- C10: an empty write is an identity — on a session that is not done,
`write("")` performs no parse and returns the state unchanged, so the
snapshot after the call (committed blocks, buffer, version, cursor, done)
equals the snapshot before it. -/
theorem c10_empty_write_identity (parse : String → List MarkdownBlock)
    (s : Session.SessionState) (h : s.done = false) :
    Session.write parse s "" = Except.ok s
    ∧ Session.snapshot (Session.writeStep parse s "") = Session.snapshot s := by
  have hing : Session.ingest parse s "" = s := rfl
  constructor
  · simp [Session.write, h, hing]
  · simp [Session.writeStep, Session.write, h, hing]

/-- C10 witness: an empty write on the freshly created session returns the
state unchanged. -/
theorem c10_witness :
    Session.write demoParse Session.initialState "" = Except.ok Session.initialState :=
  (c10_empty_write_identity demoParse Session.initialState (by decide)).1

theorem appendCommitted_eq (a b : List MarkdownBlock) :
    appendCommitted a b = a ++ b := by
  cases a <;> simp [appendCommitted]

/-- C6 counterexample: in the merge engine a zero-node parse does not
leave the resume offset unchanged.  From the empty previous state (cursor
0), merging the whitespace-only text "   " is an extension step whose
suffix parses to zero nodes with finalize false, yet the resulting cursor
is 3 (the full text length), not the previous cursor 0 — so the same span
is not reparsed on the next call. -/
theorem c6_counterexample :
    (parseNodes demoParse (jsDrop (joinChunks ["   "])
        (mergeMarkdownState demoParse none ⟨[""], false⟩).state.cursor) = [])
    ∧ ((mergeMarkdownState demoParse none ⟨[""], false⟩).state.cursor = 0)
    ∧ ((mergeMarkdownState demoParse
        (some (mergeMarkdownState demoParse none ⟨[""], false⟩).state)
        ⟨["   "], false⟩).state.cursor = 3) := by
  decide

/-- C6 (amended): whenever an extension parse of the unconsumed span
yields zero block nodes and finalize is false, nothing is promoted (the
committed array is reused, the very same allocation) and the buffer slot
becomes empty; the merge engine then advances the cursor to the full
length of the merged text, consuming the span, while the sliced-pending
session implementation instead keeps its pending source unchanged so that
the same span is reparsed on the next call. -/
theorem c6_empty_parse_amended (parse : String → List MarkdownBlock)
    (p : MarkdownMachineState) (input : MarkdownMergeInput)
    (h1 : ¬(joinChunks input.chunks = p.text ∧ input.done = p.done))
    (h2 : isExtensionOf (joinChunks input.chunks) p.text = true)
    (h3 : ¬(jsLen (jsDrop (joinChunks input.chunks) p.cursor) = 0 ∧ input.done = p.done))
    (h4 : input.done = false)
    (h5 : parseNodes parse (jsDrop (joinChunks input.chunks) p.cursor) = []) :
    (mergeMarkdownState parse (some p) input).state.committedBlocks = p.committedBlocks
    ∧ (mergeMarkdownState parse (some p) input).state.bufferBlock = none
    ∧ (mergeMarkdownState parse (some p) input).state.cursor = jsLen (joinChunks input.chunks)
    ∧ ∀ s : Session.SessionState,
        Session.promoteBlocks s [] false = ({ s with bufferBlocks := [] }, false) := by
  have hnot : ¬(isExtensionOf (joinChunks input.chunks) p.text = false) := by
    simp [h2]
  refine ⟨?_, ?_, ?_, fun s => rfl⟩ <;>
    simp only [mergeMarkdownState, if_neg h1, if_neg hnot, if_neg h3] <;>
      simp [h4, h5, mkMergeResult]

/-- C6 witness: the counterexample instance also discharges the amended
claim — committed blocks reused, buffer emptied, cursor at full length. -/
theorem c6_witness :
    ((mergeMarkdownState demoParse
        (some (mergeMarkdownState demoParse none ⟨[""], false⟩).state)
        ⟨["   "], false⟩).state.committedBlocks
      = (mergeMarkdownState demoParse none ⟨[""], false⟩).state.committedBlocks)
    ∧ ((mergeMarkdownState demoParse
        (some (mergeMarkdownState demoParse none ⟨[""], false⟩).state)
        ⟨["   "], false⟩).state.bufferBlock = none)
    ∧ ((mergeMarkdownState demoParse
        (some (mergeMarkdownState demoParse none ⟨[""], false⟩).state)
        ⟨["   "], false⟩).state.cursor = jsLen (joinChunks ["   "])) := by
  have h := c6_empty_parse_amended demoParse
    (mergeMarkdownState demoParse none ⟨[""], false⟩).state
    ⟨["   "], false⟩ (by decide) (by decide) (by decide) (by decide) (by decide)
  exact ⟨h.1, h.2.1, h.2.2.1⟩

/-- C3: promotion rule for two or more parsed nodes — whenever an
extension parse of the unconsumed span yields at least 2 block nodes and
finalize is false, every node except the last is appended to the committed
sequence in parse order, the last node becomes the sole buffered block,
and the cursor is set to the previous cursor plus the buffered node's
reported start offset within the suffix, so that the next incremental
parse starts exactly at the buffered node's start. -/
theorem c3_promotion_rule (parse : String → List MarkdownBlock)
    (p : MarkdownMachineState) (input : MarkdownMergeInput)
    (b : MarkdownBlock) (k : Int)
    (h1 : ¬(joinChunks input.chunks = p.text ∧ input.done = p.done))
    (h2 : isExtensionOf (joinChunks input.chunks) p.text = true)
    (h3 : ¬(jsLen (jsDrop (joinChunks input.chunks) p.cursor) = 0 ∧ input.done = p.done))
    (h4 : input.done = false)
    (h5 : 2 ≤ (parseNodes parse (jsDrop (joinChunks input.chunks) p.cursor)).length)
    (h6 : (parseNodes parse (jsDrop (joinChunks input.chunks) p.cursor)).getLast? = some b)
    (h7 : b.start = some k) (h8 : 0 ≤ k) :
    (mergeMarkdownState parse (some p) input).state.committedBlocks.val =
      p.committedBlocks.val
        ++ (parseNodes parse (jsDrop (joinChunks input.chunks) p.cursor)).dropLast
    ∧ (mergeMarkdownState parse (some p) input).state.bufferBlock = some b
    ∧ (mergeMarkdownState parse (some p) input).state.cursor = p.cursor + k.toNat := by
  have hnot : ¬(isExtensionOf (joinChunks input.chunks) p.text = false) := by
    simp [h2]
  have hlen0 : ¬((parseNodes parse (jsDrop (joinChunks input.chunks) p.cursor)).length = 0) := by
    omega
  have hlen1 : ¬((parseNodes parse (jsDrop (joinChunks input.chunks) p.cursor)).length = 1) := by
    omega
  have hready : 0 < (parseNodes parse (jsDrop (joinChunks input.chunks) p.cursor)).dropLast.length := by
    rw [List.length_dropLast]
    omega
  have h1lt : 1 < (parseNodes parse (jsDrop (joinChunks input.chunks) p.cursor)).length := by
    omega
  refine ⟨?_, ?_, ?_⟩ <;>
    simp only [mergeMarkdownState, if_neg h1, if_neg hnot, if_neg h3] <;>
      simp [h4, hlen0, hlen1, hready, h1lt, h6, h7, h8, appendCommitted_eq,
        mkMergeResult, bufferStart]

/-- C3 witness: from the buffered state for "A" (cursor 0), merging
"A\n\nB\n\nC" parses three nodes; the first two are promoted in order, the
third (start offset 6) becomes the buffer, and the cursor becomes 6. -/
theorem c3_witness :
    ((mergeMarkdownState demoParse
        (some (mergeMarkdownState demoParse none ⟨["A"], false⟩).state)
        ⟨["A\n\nB\n\nC"], false⟩).state.committedBlocks.val =
      (mergeMarkdownState demoParse none ⟨["A"], false⟩).state.committedBlocks.val
        ++ (parseNodes demoParse (jsDrop (joinChunks ["A\n\nB\n\nC"])
            (mergeMarkdownState demoParse none ⟨["A"], false⟩).state.cursor)).dropLast)
    ∧ ((mergeMarkdownState demoParse
        (some (mergeMarkdownState demoParse none ⟨["A"], false⟩).state)
        ⟨["A\n\nB\n\nC"], false⟩).state.bufferBlock
      = some ⟨"paragraph", "C", some 6⟩)
    ∧ ((mergeMarkdownState demoParse
        (some (mergeMarkdownState demoParse none ⟨["A"], false⟩).state)
        ⟨["A\n\nB\n\nC"], false⟩).state.cursor
      = (mergeMarkdownState demoParse none ⟨["A"], false⟩).state.cursor + (6 : Int).toNat) :=
  c3_promotion_rule demoParse
    (mergeMarkdownState demoParse none ⟨["A"], false⟩).state
    ⟨["A\n\nB\n\nC"], false⟩ ⟨"paragraph", "C", some 6⟩ 6
    (by decide) (by decide) (by decide) (by decide) (by decide) (by decide)
    (by decide) (by decide)

/-- C9: reference stability — an extension merge step that causes no
promotion (the suffix parses to at most one node, finalize false) returns
the very same committed-blocks array as the previous state: equal
allocation identifier and equal contents, the model of JS reference
equality.  Two consecutive such steps therefore hand out the identical
array object in both snapshots, so consumers can use reference equality to
skip re-rendering. -/
theorem c9_reference_stability (parse : String → List MarkdownBlock)
    (p : MarkdownMachineState) (input : MarkdownMergeInput)
    (h2 : isExtensionOf (joinChunks input.chunks) p.text = true)
    (h4 : input.done = false)
    (h5 : (parseNodes parse (jsDrop (joinChunks input.chunks) p.cursor)).length ≤ 1) :
    (mergeMarkdownState parse (some p) input).state.committedBlocks = p.committedBlocks
    ∧ (mergeMarkdownState parse (some p) input).committedBlocks = p.committedBlocks := by
  have hnot : ¬(isExtensionOf (joinChunks input.chunks) p.text = false) := by
    simp [h2]
  by_cases h1 : joinChunks input.chunks = p.text ∧ input.done = p.done
  · constructor <;> simp [mergeMarkdownState, if_pos h1, mkMergeResult]
  · by_cases h3 : jsLen (jsDrop (joinChunks input.chunks) p.cursor) = 0 ∧ input.done = p.done
    · constructor <;>
        simp only [mergeMarkdownState, if_neg h1, if_neg hnot, if_pos h3] <;>
          simp [mkMergeResult]
    · by_cases hl0 : (parseNodes parse (jsDrop (joinChunks input.chunks) p.cursor)).length = 0
      · constructor <;>
          simp only [mergeMarkdownState, if_neg h1, if_neg hnot, if_neg h3] <;>
            simp [h4, hl0, mkMergeResult]
      · have hl1 : (parseNodes parse (jsDrop (joinChunks input.chunks) p.cursor)).length = 1 := by
          omega
        constructor <;>
          simp only [mergeMarkdownState, if_neg h1, if_neg hnot, if_neg h3] <;>
            simp [h4, hl0, hl1, mkMergeResult]

/-- C9 witness: the repository's own buffer-only scenario — extending
"Hello" to "Hello, world" causes no promotion and returns the identical
committed-blocks array. -/
theorem c9_witness :
    ((mergeMarkdownState demoParse
        (some (mergeMarkdownState demoParse none ⟨["Hello"], false⟩).state)
        ⟨["Hello, world"], false⟩).state.committedBlocks
      = (mergeMarkdownState demoParse none ⟨["Hello"], false⟩).state.committedBlocks)
    ∧ ((mergeMarkdownState demoParse
        (some (mergeMarkdownState demoParse none ⟨["Hello"], false⟩).state)
        ⟨["Hello, world"], false⟩).committedBlocks
      = (mergeMarkdownState demoParse none ⟨["Hello"], false⟩).state.committedBlocks) :=
  c9_reference_stability demoParse
    (mergeMarkdownState demoParse none ⟨["Hello"], false⟩).state
    ⟨["Hello, world"], false⟩ (by decide) (by decide) (by decide)

theorem jsLen_append (a b : String) : jsLen (a ++ b) = jsLen a + jsLen b := by
  simp [jsLen]

/-- C8: no-crash on malformed input — the only error the session can ever
raise is the InvalidState error for writing after done; on a session that
is not done, `write` always succeeds on every input string, and when the
parser produces zero blocks from the pending span (the degraded outcome of
a failed or insufficient parse) the previously committed blocks and the
done flag are left untouched.  `finalize` and `reset` are total functions
of the state in this embedding, because outside the done-guard of `write`
the source contains no throw at all. -/
theorem c8_no_crash (parse : String → List MarkdownBlock)
    (s : Session.SessionState) (chunk : String) :
    (∀ e, Session.write parse s chunk = Except.error e →
      e = Session.SessionError.invalidState ∧ s.done = true)
    ∧ (s.done = false →
      Session.write parse s chunk = Except.ok (Session.ingest parse s chunk)
      ∧ (parse (s.bufferSource ++ chunk) = [] →
        (Session.ingest parse s chunk).committedBlocks = s.committedBlocks
        ∧ (Session.ingest parse s chunk).done = s.done)) := by
  constructor
  · intro e he
    by_cases hd : s.done
    · cases e
      exact ⟨rfl, hd⟩
    · simp [Session.write, hd] at he
  · intro hd
    constructor
    · simp [Session.write, hd]
    · intro hp
      by_cases h0 : jsLen chunk = 0
      · simp [Session.ingest, h0]
      · have hne : ¬(jsLen (s.bufferSource ++ chunk) = 0) := by
          rw [jsLen_append]
          omega
        constructor <;>
          simp [Session.ingest, h0, Session.parseBuffer, hne, hp,
            Session.promoteBlocks]

/-- C8 witness: writing the whitespace-only chunk "   " (which the parser
degrades to zero blocks) on the fresh session succeeds and leaves the
committed blocks untouched. -/
theorem c8_witness :
    Session.write demoParse Session.initialState "   "
      = Except.ok (Session.ingest demoParse Session.initialState "   ")
    ∧ (Session.ingest demoParse Session.initialState "   ").committedBlocks
      = Session.initialState.committedBlocks :=
  ⟨((c8_no_crash demoParse Session.initialState "   ").2 (by decide)).1,
   (((c8_no_crash demoParse Session.initialState "   ").2 (by decide)).2 (by decide)).1⟩

/- Sanity checks: the embedding reproduces the repository's own test
scenarios under the demonstration parser. -/

example :
    (Session.finalizeSession demoParse
      (Session.applyWrites demoParse Session.initialState
        ["Only block in stream"]) none).committedBlocks.length = 1 := by
  decide

example :
    (Session.finalizeSession demoParse
      (Session.applyWrites demoParse Session.initialState
        ["Only block in stream"]) none).done = true := by
  decide

example :
    (Session.finalizeSession demoParse
      (Session.applyWrites demoParse Session.initialState
        ["First block\n\nSecond block sta"]) (some "ble end")).committedBlocks.length = 2 := by
  decide

example :
    (Session.finalizeSession demoParse
      (Session.applyWrites demoParse Session.initialState
        ["First block\n\nSecond block sta"]) (some "ble end")).bufferBlocks.length = 0 := by
  decide

example :
    (Session.createSession demoParse
      (some ⟨some "Initial block", true⟩)).committedBlocks.length = 1 := by
  decide

example :
    (Session.resetSession demoParse
      (some ⟨some "Streaming block one\n\nblock two", false⟩)).committedBlocks.length = 1 := by
  decide

example :
    (Session.resetSession demoParse
      (some ⟨some "Streaming block one\n\nblock two", false⟩)).bufferBlocks.length = 1 := by
  decide

example :
    ((mergeMarkdownState demoParse
      (some (mergeMarkdownState demoParse none ⟨["Alpha\n\nBeta"], false⟩).state)
      ⟨["Replaced content"], false⟩).state.version
    = (mergeMarkdownState demoParse none ⟨["Alpha\n\nBeta"], false⟩).state.version + 1) := by
  decide

example :
    ((mergeMarkdownState demoParse
      (some (mergeMarkdownState demoParse none ⟨["Intro\n\nBody"], false⟩).state)
      ⟨["Intro\n\nBody"], true⟩).state.done = true)
    ∧ ((mergeMarkdownState demoParse
      (some (mergeMarkdownState demoParse none ⟨["Intro\n\nBody"], false⟩).state)
      ⟨["Intro\n\nBody"], true⟩).state.committedBlocks.val.length = 2) := by
  decide
